import Mathlib

/-!
Verification of the computational core of the Daytrade dashboard
(`src/App.jsx`): position sizing (`calcPosition`), the derived equity
series (`equity`), monthly statistics (`monthStats`), the daily
loss/target rules (`dailyLossExceeded`, `dailyTargetHit`), the journal
upsert (`addOrUpdateEntry`) and the CSV export.

Numbers are modelled as rationals (`ℚ`): all arithmetic in the source is
`+ - * /`, `Math.abs`, `Math.max` and comparisons, and every division in
the source is guarded so the denominator is nonzero on the executed
path.  Dates and notes are strings; the JavaScript `sort` comparator
`a.date.localeCompare(b.date)` is modelled by a stable insertion sort on
the lexicographic string order.
-/

/-- A journal entry as stored in the `entries` state: the form handler
(`addOrUpdateEntry` in the source) has already coerced the balances to
numbers, so the numeric fields are rationals here. -/
structure JournalEntry where
  date : String
  startBalance : ℚ
  endBalance : ℚ
  notes : String
deriving DecidableEq, Repr

/-- A derived equity row, as built by the `equity` memo in the source.
The source field `end` is a Lean keyword, hence `end_`. -/
structure EquityRow where
  index : Nat
  date : String
  start : ℚ
  end_ : ℚ
  pl : ℚ
  retPct : ℚ
deriving DecidableEq, Repr

/-- The object returned by `calcPosition` in the source (field names as in
the source's return object). -/
structure PositionPlan where
  entry : ℚ
  stop : ℚ
  stopDist : ℚ
  riskValue : ℚ
  positionUSDT : ℚ
  units : ℚ
  notional : ℚ
  marginRequired : ℚ
  estFees : ℚ
deriving DecidableEq, Repr

/-- Embedding of `calcPosition` (src/App.jsx lines 20-37).  JavaScript
`Number(x)` coercion is the identity on rationals; the falsy test `!x`
becomes `= 0`; `Number(leverage || 1)` becomes
`if leverage = 0 then 1 else leverage`. -/
def calcPosition (entry stop balance riskPercent feePercent leverage : ℚ) :
    Option PositionPlan :=
  let e := entry
  let s := stop
  let bal := balance
  let rPct := riskPercent / 100
  let fPct := feePercent / 100
  let lev := max 1 (if leverage = 0 then 1 else leverage)
  if e = 0 ∨ s = 0 ∨ bal = 0 ∨ rPct = 0 then none
  else
    let stopDist := |e - s|
    if stopDist ≤ 0 then none
    else
      let riskValue := bal * rPct
      let positionUSDT := riskValue / (stopDist / e)
      let units := positionUSDT / e
      let notional := positionUSDT
      let marginRequired := notional / lev
      let estFees := notional * fPct
      some { entry := e, stop := s, stopDist := stopDist, riskValue := riskValue,
             positionUSDT := positionUSDT, units := units, notional := notional,
             marginRequired := marginRequired, estFees := estFees }

/-- The comparator of the `equity` memo: `a.date.localeCompare(b.date)`,
i.e. lexicographic order on the date strings. -/
def dateLe (a b : JournalEntry) : Prop := a.date ≤ b.date

instance : DecidableRel dateLe := fun a b =>
  decidable_of_iff (a.date.toList ≤ b.date.toList) String.le_iff_toList_le.symm

instance : IsTotal JournalEntry dateLe := ⟨fun a b => le_total a.date b.date⟩

instance : IsTrans JournalEntry dateLe := ⟨fun _ _ _ hab hbc => le_trans hab hbc⟩

/-- Embedding of the `equity` memo (src/App.jsx lines 55-64): sort the
entries by date ascending, then map each to an `EquityRow` with a 1-based
index. -/
def equity (entries : List JournalEntry) : List EquityRow :=
  let sorted := List.insertionSort dateLe entries
  sorted.enum.map (fun p =>
    let start := p.2.startBalance
    let endB := p.2.endBalance
    let pl := endB - start
    let retPct := if start > 0 then pl / start * 100 else 0
    { index := p.1 + 1, date := p.2.date, start := start, end_ := endB,
      pl := pl, retPct := retPct })

/-- JavaScript `date.startsWith(ym)`: `ym` is a prefix of the character
sequence of `date` (modelled on the underlying character lists). -/
def dateInMonth (date ym : String) : Bool :=
  ym.data.isPrefixOf date.data

/-- Embedding of the `monthStats` memo (src/App.jsx lines 66-74), with the
current year-month string `ym` as an explicit parameter.
`r.date.startsWith(ym)` is the string prefix test `dateInMonth`. -/
def monthStats (series : List EquityRow) (ym : String) : ℚ × ℚ :=
  let monthRows := series.filter (fun r => dateInMonth r.date ym)
  let pl := monthRows.foldl (fun s r => s + r.pl) 0
  let start := match monthRows with
    | [] => 0
    | r :: _ => r.start
  let retPct := if start > 0 then pl / start * 100 else 0
  (pl, retPct)

/-- Embedding of the `dailyLossExceeded` memo (src/App.jsx lines 77-81);
the daily row is an `Option` because `equity.find` may miss. -/
def dailyLossExceeded (dailyRow : Option EquityRow) (maxDailyLossPercent : ℚ) :
    Bool :=
  match dailyRow with
  | none => false
  | some row =>
    if row.start ≤ 0 then false
    else
      let lossPct := if row.pl < 0 then |row.pl| / row.start * 100 else 0
      decide (lossPct ≥ maxDailyLossPercent)

/-- Embedding of the `dailyTargetHit` memo (src/App.jsx lines 83-87). -/
def dailyTargetHit (dailyRow : Option EquityRow) (dailyTargetPercent : ℚ) :
    Bool :=
  match dailyRow with
  | none => false
  | some row =>
    if row.start ≤ 0 then false
    else
      let ret := row.pl / row.start * 100
      decide (ret ≥ dailyTargetPercent)

/-- The pair of daily rule flags, as the spec's `evaluateDailyRules`
bundles the two memos. -/
def evaluateDailyRules (dailyRow : Option EquityRow)
    (maxDailyLossPercent dailyTargetPercent : ℚ) : Bool × Bool :=
  (dailyLossExceeded dailyRow maxDailyLossPercent,
   dailyTargetHit dailyRow dailyTargetPercent)

/-- Embedding of the `addOrUpdateEntry` handler's store update
(src/App.jsx lines 90-99): find the index of an entry with the same date;
replace it there, otherwise append. -/
def addOrUpdateEntry (entries : List JournalEntry) (payload : JournalEntry) :
    List JournalEntry :=
  match entries.findIdx? (fun x => x.date == payload.date) with
  | some idx => entries.set idx payload
  | none => entries ++ [payload]

/-- The note lookup of the CSV export:
`entries.find(e => e.date === r.date)?.notes || ""`. -/
def noteFor (entries : List JournalEntry) (date : String) : String :=
  match entries.find? (fun e => e.date == date) with
  | some e => e.notes
  | none => ""

/-- `notes.replace(/,/g, ";")` from the CSV export: every comma character
becomes a semicolon. -/
def sanitizeNotes (s : String) : String :=
  ⟨s.data.map (fun c => if c = ',' then ';' else c)⟩

/-- The header fields of the exported CSV (src/App.jsx line 203). -/
def csvHeaderFields : List String :=
  ["date", "startBalance", "endBalance", "pl", "retPct", "notes"]

/-- The six fields of one CSV data line (src/App.jsx line 204). -/
def csvFields (entries : List JournalEntry) (r : EquityRow) : List String :=
  [r.date, toString r.start, toString r.end_, toString r.pl, toString r.retPct,
   sanitizeNotes (noteFor entries r.date)]

/-- The lines of the exported CSV, as lists of fields: the header followed
by one line per derived equity row. -/
def csvLines (entries : List JournalEntry) : List (List String) :=
  csvHeaderFields :: (equity entries).map (csvFields entries)

/-- The exported CSV text: fields joined by commas, lines by newlines
(the `join` calls of src/App.jsx lines 202-205). -/
def csvExport (entries : List JournalEntry) : String :=
  String.intercalate "\n" ((csvLines entries).map (String.intercalate ","))

/-- Concrete inputs used to instantiate the theorems below. -/
def examplePlan : PositionPlan :=
  { entry := 100, stop := 95, stopDist := 5, riskValue := 100, positionUSDT := 2000,
    units := 20, notional := 2000, marginRequired := 2000 / 3, estFees := 4 / 5 }

/-- The spec's equity example: two consecutive trading days. -/
def exampleEntries : List JournalEntry :=
  [⟨"2024-01-01", 1000, 1050, ""⟩, ⟨"2024-01-02", 1050, 1020, ""⟩]

/-- The first derived row of `exampleEntries`. -/
def exampleRow : EquityRow := ⟨1, "2024-01-01", 1000, 1050, 50, 5⟩

/-- The spec's daily-rule example: a 40-unit loss on a 1000 start. -/
def exampleDailyRow : EquityRow := ⟨1, "2024-01-02", 1000, 960, -40, -4⟩

/-- A winning day: positive P/L on a 1000 start. -/
def exampleGainRow : EquityRow := ⟨1, "2024-01-03", 1000, 1050, 50, 5⟩

/-- Folding the source's `reduce((s, r) => s + r.pl, 0)` equals summing the
mapped `pl` column. -/
theorem foldl_add_pl (l : List EquityRow) (init : ℚ) :
    l.foldl (fun s r => s + r.pl) init = init + (l.map EquityRow.pl).sum := by
  induction l generalizing init with
  | nil => simp
  | cons x xs ih => simp [ih, add_assoc]

/-- Claim C2: `calcPosition` returns `none` exactly when one of entry,
stop, balance or riskPercent is zero, or the stop distance
`|entry - stop|` is `≤ 0` (i.e. entry equals stop); on every other input
it returns a plan.  The embedding is total, so no exception is possible. -/
theorem calcPosition_none_iff (entry stop balance riskPercent feePercent leverage : ℚ) :
    calcPosition entry stop balance riskPercent feePercent leverage = none ↔
      entry = 0 ∨ stop = 0 ∨ balance = 0 ∨ riskPercent = 0 ∨ entry = stop := by
  simp only [calcPosition]
  by_cases h1 : entry = 0 ∨ stop = 0 ∨ balance = 0 ∨ riskPercent / 100 = 0
  · rw [if_pos h1]
    simp only [div_eq_zero_iff, OfNat.ofNat_ne_zero, or_false] at h1
    exact iff_of_true rfl (by tauto)
  · rw [if_neg h1]
    by_cases h2 : |entry - stop| ≤ 0
    · have hes : entry = stop := sub_eq_zero.mp (abs_nonpos_iff.mp h2)
      rw [if_pos h2]
      exact iff_of_true rfl (Or.inr (Or.inr (Or.inr (Or.inr hes))))
    · rw [if_neg h2]
      refine iff_of_false (by simp) ?_
      push_neg at h1
      rintro (h | h | h | h | h)
      · exact h1.1 h
      · exact h1.2.1 h
      · exact h1.2.2.1 h
      · exact h1.2.2.2 (by rw [h]; norm_num)
      · exact h2 (by rw [h, sub_self, abs_zero])

/-- Claim C1 (amended): every returned plan satisfies the stated formulas
(risk value, notional, units, margin with leverage clamped to at least 1,
fees), and on the spec's example input the plan is exactly
`stopDist = 5`, `riskValue = 100`, `positionNotional = 2000`,
`units = 20`, `marginRequired = 2000/3` (which displays as 666.67) and
`estFees = 0.8`. -/
theorem calcPosition_formulas :
    (∀ entry stop balance riskPercent feePercent leverage : ℚ, ∀ plan : PositionPlan,
        calcPosition entry stop balance riskPercent feePercent leverage = some plan →
          plan.stopDist = |entry - stop| ∧
          plan.riskValue = balance * (riskPercent / 100) ∧
          plan.positionUSDT = plan.riskValue / (plan.stopDist / entry) ∧
          plan.notional = plan.positionUSDT ∧
          plan.units = plan.notional / entry ∧
          plan.marginRequired = plan.notional / max 1 leverage ∧
          plan.estFees = plan.notional * (feePercent / 100)) ∧
      calcPosition 100 95 10000 1 (1/25) 3 =
        some { entry := 100, stop := 95, stopDist := 5, riskValue := 100,
               positionUSDT := 2000, units := 20, notional := 2000,
               marginRequired := 2000 / 3, estFees := 4 / 5 } := by
  constructor
  · intro entry stop balance riskPercent feePercent leverage plan h
    simp only [calcPosition] at h
    by_cases h1 : entry = 0 ∨ stop = 0 ∨ balance = 0 ∨ riskPercent / 100 = 0
    · rw [if_pos h1] at h; exact absurd h (by simp)
    rw [if_neg h1] at h
    by_cases h2 : |entry - stop| ≤ 0
    · rw [if_pos h2] at h; exact absurd h (by simp)
    rw [if_neg h2, Option.some_inj] at h
    subst h
    refine ⟨rfl, rfl, rfl, rfl, rfl, ?_, rfl⟩
    show _ / max 1 (if leverage = 0 then 1 else leverage) = _ / max 1 leverage
    by_cases hl : leverage = 0
    · rw [if_pos hl, hl, max_eq_left zero_le_one, max_self]
    · rw [if_neg hl]
  · norm_num [calcPosition]

/-- Claim C1 counterexample: on the spec's example input the returned
`marginRequired` is `2000/3 = 666.666...`, not the claimed `666.67`. -/
theorem calcPosition_example_margin_ne :
    (calcPosition 100 95 10000 1 (1/25) 3).map PositionPlan.marginRequired ≠
      some (66667/100 : ℚ) := by
  norm_num [calcPosition]

/-- Claim C1 witness: the formula theorem instantiated at the spec's
example input. -/
theorem calcPosition_formulas_witness :
    calcPosition 100 95 10000 1 (1/25) 3 = some examplePlan ∧
      (examplePlan.stopDist = |(100 : ℚ) - 95| ∧
       examplePlan.riskValue = 10000 * ((1 : ℚ) / 100) ∧
       examplePlan.positionUSDT = examplePlan.riskValue / (examplePlan.stopDist / 100) ∧
       examplePlan.notional = examplePlan.positionUSDT ∧
       examplePlan.units = examplePlan.notional / 100 ∧
       examplePlan.marginRequired = examplePlan.notional / max 1 3 ∧
       examplePlan.estFees = examplePlan.notional * ((1 / 25 : ℚ) / 100)) :=
  ⟨by norm_num [calcPosition, examplePlan],
   calcPosition_formulas.1 100 95 10000 1 (1/25) 3 examplePlan
     (by norm_num [calcPosition, examplePlan])⟩

/-- Claim C10: for every non-null plan, `units * stopDist = riskValue` in
exact arithmetic, independent of fees and leverage. -/
theorem calcPosition_units_stopDist (entry stop balance riskPercent feePercent leverage : ℚ)
    (plan : PositionPlan)
    (h : calcPosition entry stop balance riskPercent feePercent leverage = some plan) :
    plan.units * plan.stopDist = plan.riskValue := by
  simp only [calcPosition] at h
  by_cases h1 : entry = 0 ∨ stop = 0 ∨ balance = 0 ∨ riskPercent / 100 = 0
  · rw [if_pos h1] at h; exact absurd h (by simp)
  rw [if_neg h1] at h
  by_cases h2 : |entry - stop| ≤ 0
  · rw [if_pos h2] at h; exact absurd h (by simp)
  rw [if_neg h2, Option.some_inj] at h
  subst h
  push_neg at h1
  have he : entry ≠ 0 := h1.1
  have hsd : |entry - stop| ≠ 0 := fun hz => h2 (le_of_eq hz)
  dsimp only
  field_simp
  ring

/-- Claim C10 witness: the invariant instantiated at the example plan. -/
theorem calcPosition_units_stopDist_witness :
    calcPosition 100 95 10000 1 (1/25) 3 = some examplePlan ∧
      examplePlan.units * examplePlan.stopDist = examplePlan.riskValue :=
  ⟨by norm_num [calcPosition, examplePlan],
   calcPosition_units_stopDist 100 95 10000 1 (1/25) 3 examplePlan
     (by norm_num [calcPosition, examplePlan])⟩

/-- Claim C3: for every entry collection the derived equity series is
sorted by date ascending (lexicographic string order) and its `index`
column is exactly the contiguous 1-based sequence `1, ..., n`. -/
theorem equity_sorted_indexed (entries : List JournalEntry) :
    List.Sorted (· ≤ ·) ((equity entries).map EquityRow.date) ∧
    (equity entries).map EquityRow.index = List.range' 1 entries.length := by
  have hs : List.Sorted dateLe (List.insertionSort dateLe entries) :=
    List.sorted_insertionSort dateLe entries
  constructor
  · have hmap : (equity entries).map EquityRow.date
        = (List.insertionSort dateLe entries).map (fun e => e.date) := by
      conv_rhs => rw [← List.enumFrom_map_snd 0 (List.insertionSort dateLe entries)]
      simp only [equity, List.map_map]
      rfl
    rw [hmap]
    exact List.pairwise_map.mpr hs
  · have hmap : (equity entries).map EquityRow.index
        = (List.enumFrom 0 (List.insertionSort dateLe entries)).map (fun p => p.1 + 1) := by
      simp only [equity, List.map_map]
      rfl
    rw [hmap]
    have hsplit : (List.enumFrom 0 (List.insertionSort dateLe entries)).map (fun p => p.1 + 1)
        = ((List.enumFrom 0 (List.insertionSort dateLe entries)).map Prod.fst).map
            (fun i => 1 + i) := by
      rw [List.map_map]
      exact List.map_congr_left (fun p _ => Nat.add_comm p.1 1)
    rw [hsplit, List.enumFrom_map_fst, List.map_add_range', List.length_insertionSort]

/-- Claim C4 (amended): every derived row satisfies `pl = end - start`,
`retPct = pl/start*100` when `start > 0`, and `retPct = 0` when
`start = 0`; on the spec's two-day example the rows carry `pl = [50, -30]`
and `retPct = [5, -20/7]` (the exact value `-20/7 = -2.857142...` displays
as `-2.857`). -/
theorem equity_row_formulas :
    (∀ entries : List JournalEntry, ∀ r ∈ equity entries,
        r.pl = r.end_ - r.start ∧
        (0 < r.start → r.retPct = r.pl / r.start * 100) ∧
        (r.start = 0 → r.retPct = 0)) ∧
      (equity exampleEntries).map EquityRow.pl = [50, -30] ∧
      (equity exampleEntries).map EquityRow.retPct = [5, -20/7] := by
  refine ⟨?_, ?_, ?_⟩
  · intro entries r hr
    simp only [equity, List.mem_map] at hr
    obtain ⟨p, -, rfl⟩ := hr
    refine ⟨rfl, ?_, ?_⟩
    · intro h
      dsimp only at h ⊢
      rw [if_pos h]
    · intro h
      dsimp only at h ⊢
      rw [h]
      rw [if_neg (lt_irrefl 0)]
  · norm_num +decide [equity, exampleEntries, List.enum, List.enumFrom]
  · norm_num +decide [equity, exampleEntries, List.enum, List.enumFrom]

/-- Claim C4 counterexample: the second example row's `retPct` is `-20/7`,
which is not the claimed `-2.857`. -/
theorem equity_example_retPct_ne :
    (equity exampleEntries).map EquityRow.retPct ≠ [5, -2857/1000] := by
  norm_num +decide [equity, exampleEntries, List.enum, List.enumFrom]

/-- Claim C4 witness: the row formulas instantiated at the first derived
row of the example entries. -/
theorem equity_row_formulas_witness :
    exampleRow ∈ equity exampleEntries ∧
      (exampleRow.pl = exampleRow.end_ - exampleRow.start ∧
       (0 < exampleRow.start → exampleRow.retPct = exampleRow.pl / exampleRow.start * 100) ∧
       (exampleRow.start = 0 → exampleRow.retPct = 0)) :=
  ⟨by norm_num +decide [equity, exampleEntries, exampleRow, List.enum, List.enumFrom],
   equity_row_formulas.1 exampleEntries exampleRow
     (by norm_num +decide [equity, exampleEntries, exampleRow, List.enum, List.enumFrom])⟩

/-- Claim C5: the daily rules return `(false, false)` for a missing row or
a nonpositive start balance, and otherwise compare the loss percentage
(the magnitude of a negative P/L over start, else 0) with the loss
threshold and the return percentage with the target threshold; on the
spec's example (`pl = -40`, `start = 1000`, threshold 3) the loss flag is
set. -/
theorem evaluateDailyRules_spec :
    (∀ m t : ℚ, evaluateDailyRules none m t = (false, false)) ∧
    (∀ r : EquityRow, ∀ m t : ℚ, r.start ≤ 0 →
        evaluateDailyRules (some r) m t = (false, false)) ∧
    (∀ r : EquityRow, ∀ m t : ℚ, 0 < r.start →
        ((evaluateDailyRules (some r) m t).1 = true ↔
          (if r.pl < 0 then |r.pl| / r.start * 100 else 0) ≥ m) ∧
        ((evaluateDailyRules (some r) m t).2 = true ↔ r.pl / r.start * 100 ≥ t)) ∧
    (evaluateDailyRules (some exampleDailyRow) 3 1).1 = true := by
  refine ⟨fun m t => rfl, ?_, ?_, ?_⟩
  · intro r m t h
    simp [evaluateDailyRules, dailyLossExceeded, dailyTargetHit, if_pos h]
  · intro r m t h
    have h' : ¬ r.start ≤ 0 := not_le.mpr h
    constructor
    · simp [evaluateDailyRules, dailyLossExceeded, if_neg h']
    · simp [evaluateDailyRules, dailyTargetHit, if_neg h']
  · norm_num [evaluateDailyRules, dailyLossExceeded, exampleDailyRow]

/-- Claim C5 witness: the rule characterisation instantiated at the
example losing day with thresholds 3 and 1. -/
theorem evaluateDailyRules_spec_witness :
    0 < exampleDailyRow.start ∧
      (((evaluateDailyRules (some exampleDailyRow) 3 1).1 = true ↔
          (if exampleDailyRow.pl < 0 then |exampleDailyRow.pl| / exampleDailyRow.start * 100
           else 0) ≥ 3) ∧
       ((evaluateDailyRules (some exampleDailyRow) 3 1).2 = true ↔
          exampleDailyRow.pl / exampleDailyRow.start * 100 ≥ 1)) :=
  ⟨by norm_num [exampleDailyRow],
   evaluateDailyRules_spec.2.2.1 exampleDailyRow 3 1 (by norm_num [exampleDailyRow])⟩

/-- Claim C6 (amended): a non-negative daily P/L never sets the
loss-exceeded flag for any positive threshold; for thresholds `≤ 0` the
comparison `0 ≥ threshold` holds and the flag is set even on a winning
day. -/
theorem lossExceeded_false_of_nonneg_pl (r : EquityRow) (m t : ℚ)
    (hstart : 0 < r.start) (hpl : 0 ≤ r.pl) (hm : 0 < m) :
    (evaluateDailyRules (some r) m t).1 = false := by
  have h' : ¬ r.start ≤ 0 := not_le.mpr hstart
  have hpl' : ¬ r.pl < 0 := not_lt.mpr hpl
  simp only [evaluateDailyRules, dailyLossExceeded, if_neg h', if_neg hpl']
  simp only [ge_iff_le, decide_eq_false_iff_not, not_le]
  exact hm

/-- Claim C6 counterexample: with `pl = 50 ≥ 0`, `start = 1000` and
threshold `0`, the code sets the loss-exceeded flag. -/
theorem lossExceeded_zero_threshold_cx :
    (evaluateDailyRules (some exampleGainRow) 0 1).1 = true := by
  norm_num [evaluateDailyRules, dailyLossExceeded, exampleGainRow]

/-- Claim C6 witness: the amended statement instantiated at the winning
day with threshold 3. -/
theorem lossExceeded_false_of_nonneg_pl_witness :
    0 < exampleGainRow.start ∧ 0 ≤ exampleGainRow.pl ∧ ((0:ℚ) < 3) ∧
      (evaluateDailyRules (some exampleGainRow) 3 1).1 = false :=
  ⟨by norm_num [exampleGainRow], by norm_num [exampleGainRow], by norm_num,
   lossExceeded_false_of_nonneg_pl exampleGainRow 3 1 (by norm_num [exampleGainRow])
     (by norm_num [exampleGainRow]) (by norm_num)⟩

/-- Claim C7: the month statistics sum the `pl` of the rows whose date
lies in the target year-month; the return percentage divides by the first
matching row's start balance when positive and is 0 otherwise; an empty
match (in particular an empty series) yields `(0, 0)`. -/
theorem monthStats_spec :
    (∀ (series : List EquityRow) (ym : String),
        (monthStats series ym).1
          = ((series.filter (fun r => dateInMonth r.date ym)).map EquityRow.pl).sum) ∧
    (∀ (series : List EquityRow) (ym : String) (r : EquityRow) (rest : List EquityRow),
        series.filter (fun r => dateInMonth r.date ym) = r :: rest →
          (monthStats series ym).2
            = if 0 < r.start
              then ((series.filter (fun r => dateInMonth r.date ym)).map EquityRow.pl).sum
                     / r.start * 100
              else 0) ∧
    (∀ (series : List EquityRow) (ym : String),
        series.filter (fun r => dateInMonth r.date ym) = [] →
          monthStats series ym = (0, 0)) ∧
    (∀ ym : String, monthStats [] ym = (0, 0)) := by
  refine ⟨?_, ?_, ?_, ?_⟩
  · intro series ym
    simp only [monthStats, foldl_add_pl, zero_add]
  · intro series ym r rest hf
    simp only [monthStats, hf, foldl_add_pl, zero_add]
  · intro series ym hf
    simp only [monthStats, hf]
    norm_num
  · intro ym
    simp [monthStats]

/-- Claim C7 witness: the return-percentage branch instantiated at a
one-row series inside its month. -/
theorem monthStats_spec_witness :
    [exampleRow].filter (fun r => dateInMonth r.date "2024-01") = exampleRow :: [] ∧
      (monthStats [exampleRow] "2024-01").2
        = if 0 < exampleRow.start
          then (([exampleRow].filter (fun r => dateInMonth r.date "2024-01")).map
                  EquityRow.pl).sum / exampleRow.start * 100
          else 0 :=
  ⟨by decide, monthStats_spec.2.1 [exampleRow] "2024-01" exampleRow [] (by decide)⟩

/-- Claim C8: the upsert is idempotent (a second identical call leaves the
list unchanged), replaces in place at the first index whose date matches,
and appends when no date matches. -/
theorem addOrUpdateEntry_spec :
    (∀ (l : List JournalEntry) (e : JournalEntry),
        addOrUpdateEntry (addOrUpdateEntry l e) e = addOrUpdateEntry l e) ∧
    (∀ (l : List JournalEntry) (e : JournalEntry) (i : Nat),
        l.findIdx? (fun x => x.date == e.date) = some i →
          addOrUpdateEntry l e = l.set i e) ∧
    (∀ (l : List JournalEntry) (e : JournalEntry),
        (∀ x ∈ l, x.date ≠ e.date) → addOrUpdateEntry l e = l ++ [e]) := by
  have hrepl : ∀ (l : List JournalEntry) (e : JournalEntry) (i : Nat),
      l.findIdx? (fun x => x.date == e.date) = some i →
        addOrUpdateEntry l e = l.set i e := by
    intro l e i h
    simp [addOrUpdateEntry, h]
  have happ : ∀ (l : List JournalEntry) (e : JournalEntry),
      l.findIdx? (fun x => x.date == e.date) = none →
        addOrUpdateEntry l e = l ++ [e] := by
    intro l e h
    simp [addOrUpdateEntry, h]
  refine ⟨?_, hrepl, ?_⟩
  · intro l e
    cases h : l.findIdx? (fun x => x.date == e.date) with
    | none =>
      rw [happ l e h]
      have hfind : (l ++ [e]).findIdx? (fun x => x.date == e.date) = some l.length := by
        rw [List.findIdx?_append, h]
        simp
      rw [hrepl _ e _ hfind, List.set_append_right _ _ (le_refl l.length)]
      simp
    | some i =>
      rw [hrepl l e i h]
      obtain ⟨hlt, hpi, hbefore⟩ := List.findIdx?_eq_some_iff_getElem.mp h
      have hfind : (l.set i e).findIdx? (fun x => x.date == e.date) = some i := by
        rw [List.findIdx?_eq_some_iff_getElem]
        refine ⟨by simpa using hlt, ?_, ?_⟩
        · simp
        · intro j hji
          rw [List.getElem_set_ne (ne_of_gt hji)]
          exact hbefore j hji
      rw [hrepl _ e _ hfind, List.set_set]
  · intro l e hne
    apply happ
    rw [List.findIdx?_eq_none_iff]
    intro x hx
    simpa using hne x hx

/-- Claim C8 witness: replacement in place instantiated at a one-entry
store updated on the same date. -/
theorem addOrUpdateEntry_spec_witness :
    ([⟨"2024-01-01", 1, 2, "x"⟩] : List JournalEntry).findIdx?
        (fun x => x.date == (⟨"2024-01-01", 3, 4, "y"⟩ : JournalEntry).date) = some 0 ∧
      addOrUpdateEntry [⟨"2024-01-01", 1, 2, "x"⟩] ⟨"2024-01-01", 3, 4, "y"⟩
        = ([⟨"2024-01-01", 1, 2, "x"⟩] : List JournalEntry).set 0 ⟨"2024-01-01", 3, 4, "y"⟩ :=
  ⟨by decide,
   addOrUpdateEntry_spec.2.1 [⟨"2024-01-01", 1, 2, "x"⟩] ⟨"2024-01-01", 3, 4, "y"⟩ 0 (by decide)⟩

/-- Claim C9: the exported CSV has the fixed 6-column header, exactly one
line per derived equity row, every line carries exactly 6 fields, and the
notes field has every comma replaced by a semicolon, so a note never
introduces an extra column. -/
theorem csvExport_spec :
    (∀ entries : List JournalEntry,
        (csvLines entries).length = (equity entries).length + 1) ∧
    (∀ entries : List JournalEntry, ∀ line ∈ csvLines entries, line.length = 6) ∧
    (∀ entries : List JournalEntry, (csvLines entries).head? = some csvHeaderFields) ∧
    String.intercalate "," csvHeaderFields = "date,startBalance,endBalance,pl,retPct,notes" ∧
    (∀ s : String, (sanitizeNotes s).data
        = s.data.map (fun c => if c = ',' then ';' else c)) ∧
    (∀ s : String, ',' ∉ (sanitizeNotes s).data) := by
  refine ⟨?_, ?_, ?_, ?_, ?_, ?_⟩
  · intro entries
    simp [csvLines]
  · intro entries line hl
    rcases List.mem_cons.mp hl with h | h
    · subst h; rfl
    · obtain ⟨r, -, rfl⟩ := List.mem_map.mp h
      rfl
  · intro entries
    rfl
  · rfl
  · intro s
    rfl
  · intro s hmem
    simp only [sanitizeNotes] at hmem
    obtain ⟨c, -, hc⟩ := List.mem_map.mp hmem
    by_cases h : c = ','
    · rw [if_pos h] at hc
      exact absurd hc (by decide)
    · rw [if_neg h] at hc
      exact h hc

/-- Claim C9 witness: the 6-field property instantiated at the header line
of the empty journal's export. -/
theorem csvExport_spec_witness :
    csvHeaderFields ∈ csvLines [] ∧ csvHeaderFields.length = 6 :=
  ⟨List.mem_cons_self csvHeaderFields [], csvExport_spec.2.1 [] csvHeaderFields
    (List.mem_cons_self csvHeaderFields [])⟩
